import Mathlib

/-!
Verification of the optimus control-plane core: deployment synchronization
(`runtime.go`) and job metadata compilation (the `meta.JobAdapter`, known here
through its test `meta_test.TestJobAdapter` and the specification).

Go collaborator interfaces (project repository, job service, proto adapter,
stream) are modelled as records of functions; the handler's observable effects
(adapter invocations, `Create` calls, stream sends, log writes, whether `Sync`
was invoked) are tracked in explicit traces.
-/

namespace Optimus

/-! ## Shared data model (models package) -/

/-- A name/value pair, as in `models.JobSpecConfigItem` / config entries. -/
structure JobSpecConfigItem where
  name : String
  value : String
deriving DecidableEq, Repr

/-- A job label, as in `models.JobSpecLabelItem`. -/
structure JobSpecLabelItem where
  name : String
  value : String
deriving DecidableEq, Repr

/-- Model of `models.ProjectSpec`: identity plus opaque key/value config. -/
structure ProjectSpec where
  name : String
  config : List (String × String) := []
deriving DecidableEq, Repr

/-- Model of `models.JobSpecBehavior`. -/
structure JobSpecBehavior where
  catchUp : Bool := false
  dependsOnPast : Bool := false
deriving DecidableEq, Repr

/-- Model of `models.JobSpecSchedule`; the start instant is kept as an opaque
timezone-normalized rendering. -/
structure JobSpecSchedule where
  startDate : String := ""
  interval : String := ""
deriving DecidableEq, Repr

/-- Model of `models.JobSpecTaskWindow`; durations carried in nanoseconds as in Go. -/
structure JobSpecTaskWindow where
  size : Int := 0
  offset : Int := 0
  truncateTo : String := ""
deriving DecidableEq, Repr

/-- Model of `models.JobSpecAsset`. -/
structure JobSpecAsset where
  name : String
  value : String
deriving DecidableEq, Repr

/-- Model of `models.JobAssets`: a named collection of file-like payloads. -/
structure JobAssets where
  assets : List JobSpecAsset := []
deriving DecidableEq, Repr

/-- Model of `Assets.ToMap()`: projection of the assets to a name → value mapping. -/
def JobAssets.toMap (a : JobAssets) : List (String × String) :=
  a.assets.map fun x => (x.name, x.value)

/-- The snapshot handed to `GenerateDestination` (`models.UnitData`). -/
structure UnitData where
  config : List JobSpecConfigItem
  assets : List (String × String)
deriving DecidableEq, Repr

/-- The Execution Unit capability: `{GetName, GetImage, GetDescription,
GenerateDestination}`; destination computation may fail. -/
structure ExecutionUnit where
  getName : String
  getImage : String
  getDescription : String
  generateDestination : UnitData → Except String String

/-- Hook type: logically Pre or Post relative to the task's execution. -/
inductive HookType where
  | pre
  | post
deriving DecidableEq, Repr

/-- The Hook Unit capability: name/image/description plus type and the ordered
list of hook names it depends on. -/
structure HookUnit where
  getName : String
  getImage : String
  getDescription : String
  getType : HookType
  getDependsOn : List String
deriving DecidableEq, Repr

/-- Model of `models.JobSpecTask`: the execution unit, ordered config, priority,
and the data window. -/
structure JobSpecTask where
  unit : ExecutionUnit
  config : List JobSpecConfigItem := []
  priority : Int := 0
  window : JobSpecTaskWindow := {}

/-- Dependency classification (`models.JobSpecDependencyType`): intra- or
inter-project. -/
inductive JobSpecDependencyType where
  | intra
  | inter
deriving DecidableEq, Repr

/-- Model of `Type.String()` of a dependency type. -/
def JobSpecDependencyType.toStr : JobSpecDependencyType → String
  | .intra => "intra"
  | .inter => "inter"

/-- The referenced job of a dependency: at minimum a name. -/
structure DependencyJobRef where
  name : String
deriving DecidableEq, Repr

/-- Model of `models.JobSpecDependency`: optional project (nil means same project),
referenced job, and type. -/
structure JobSpecDependency where
  project : Option ProjectSpec := none
  job : Option DependencyJobRef := none
  type : JobSpecDependencyType := .intra
deriving DecidableEq, Repr

/-- Model of `models.JobSpecHook`: a hook unit capability with its own ordered config. -/
structure JobSpecHook where
  config : List JobSpecConfigItem := []
  unit : HookUnit
deriving DecidableEq, Repr

/-- A default (zero-valued) execution unit, used for struct defaults. -/
def ExecutionUnit.zero : ExecutionUnit :=
  { getName := "", getImage := "", getDescription := "",
    generateDestination := fun _ => .ok "" }

/-- Model of `models.JobSpec`: the canonical in-memory representation of a job.
`dependencies` keeps Go's `map[string]JobSpecDependency` as an association
list from referenced job name to dependency. -/
structure JobSpec where
  name : String := ""
  owner : String := ""
  description : String := ""
  version : Int := 0
  labels : List JobSpecLabelItem := []
  behavior : JobSpecBehavior := {}
  schedule : JobSpecSchedule := {}
  task : JobSpecTask := { unit := ExecutionUnit.zero }
  assets : JobAssets := {}
  dependencies : List (String × JobSpecDependency) := []
  hooks : List JobSpecHook := []

/-! ## Metadata model (`models.JobMetadata` and parts) -/

/-- Flattened task metadata (`models.JobTaskMetadata`). -/
structure JobTaskMetadata where
  name : String
  image : String
  description : String
  destination : String
  config : List JobSpecConfigItem
  window : JobSpecTaskWindow
  priority : Int
deriving DecidableEq, Repr

/-- Flattened dependency metadata (`models.JobDependencyMetadata`). -/
structure JobDependencyMetadata where
  tenant : String
  job : String
  type : String
deriving DecidableEq, Repr

/-- Flattened hook metadata (`models.JobHookMetadata`). -/
structure JobHookMetadata where
  name : String
  image : String
  description : String
  config : List JobSpecConfigItem
  type : HookType
  dependsOn : List String
deriving DecidableEq, Repr

/-- Model of `models.JobMetadata`: the derived, immutable catalog record. -/
structure JobMetadata where
  urn : String
  name : String
  tenant : String
  version : Int
  description : String
  labels : List JobSpecLabelItem
  owner : String
  task : JobTaskMetadata
  schedule : JobSpecSchedule
  behavior : JobSpecBehavior
  dependencies : List JobDependencyMetadata
  hooks : List JobHookMetadata
deriving DecidableEq, Repr

/-- Errors of the metadata adapter, per the spec's taxonomy. -/
inductive MetaError where
  | destinationResolution (msg : String)
  | invalidDependency
  | serialization (msg : String)
deriving DecidableEq, Repr

/-- Modelled from the spec: per-entry dependency flattening inside
`FromJobSpec` (the `meta` package is not in the source sample; this follows
§4.3 step 4). `Tenant` is `dep.Project.Name` if present else the current
project's name; `Job` is the referenced job's name (falling back to the map
key, which is the referenced job name); `Type` is `dep.Type.String()`; a
dependency with neither a resolvable job nor a project signals
`InvalidDependencyError`. -/
def flattenDep (projectName : String) (key : String) (dep : JobSpecDependency) :
    Except MetaError JobDependencyMetadata :=
  if dep.job.isNone ∧ dep.project.isNone then
    .error .invalidDependency
  else
    .ok { tenant := match dep.project with
                    | some p => p.name
                    | none => projectName,
          job := match dep.job with
                 | some j => j.name
                 | none => key,
          type := dep.type.toStr }

/-- Modelled from the spec: flattening of the whole dependency mapping, in
entry order, failing on the first invalid entry. -/
def flattenDeps (projectName : String) :
    List (String × JobSpecDependency) → Except MetaError (List JobDependencyMetadata)
  | [] => .ok []
  | (key, dep) :: rest =>
    match flattenDep projectName key dep with
    | .error e => .error e
    | .ok m =>
      match flattenDeps projectName rest with
      | .error e => .error e
      | .ok ms => .ok (m :: ms)

/-- Modelled from the spec: hook flattening inside `FromJobSpec` (§4.3 step 5):
name/image/description from the Hook Unit capability, config verbatim, plus
`Type` and `DependsOn` verbatim. -/
def flattenHook (h : JobSpecHook) : JobHookMetadata :=
  { name := h.unit.getName,
    image := h.unit.getImage,
    description := h.unit.getDescription,
    config := h.config,
    type := h.unit.getType,
    dependsOn := h.unit.getDependsOn }

/-- Modelled from the spec: `meta.JobAdapter.FromJobSpec` (§4.3; the `meta`
package itself is not in the source sample, only its test). Computes
`Urn = project.Name + "::job/" + job.Name`, calls `GenerateDestination`
with the task config and asset map (propagating failure), flattens task
config and hooks preserving insertion order, and flattens dependencies. -/
def FromJobSpec (project : ProjectSpec) (job : JobSpec) :
    Except MetaError JobMetadata :=
  match job.task.unit.generateDestination
      { config := job.task.config, assets := job.assets.toMap } with
  | .error e => .error (.destinationResolution e)
  | .ok dest =>
    match flattenDeps project.name job.dependencies with
    | .error e => .error e
    | .ok deps =>
      .ok { urn := project.name ++ "::job/" ++ job.name,
            name := job.name,
            tenant := project.name,
            version := job.version,
            description := job.description,
            labels := job.labels,
            owner := job.owner,
            task := { name := job.task.unit.getName,
                      image := job.task.unit.getImage,
                      description := job.task.unit.getDescription,
                      destination := dest,
                      config := job.task.config,
                      window := job.task.window,
                      priority := job.task.priority },
            schedule := job.schedule,
            behavior := job.behavior,
            dependencies := deps,
            hooks := job.hooks.map flattenHook }

/-- Modelled from the spec: `meta.JobAdapter.CompileKey` serializes a routing
key derived from the job name; the concrete byte format is abstracted as the
key string itself (the spec fixes only that it is a deterministic function of
the job name). -/
def CompileKey (jobName : String) : Except MetaError String :=
  .ok ("job/" ++ jobName)

/-- Canonical rendering of a config list for message serialization. -/
def encodeConfig (cfg : List JobSpecConfigItem) : String :=
  String.join (cfg.map fun c => c.name ++ "=" ++ c.value ++ ";")

/-- Canonical rendering of a full metadata record for message serialization. -/
def encodeMetadata (m : JobMetadata) : String :=
  m.urn ++ "|" ++ m.name ++ "|" ++ m.tenant ++ "|" ++ toString m.version ++ "|"
    ++ m.description ++ "|" ++ m.owner ++ "|"
    ++ String.join (m.labels.map fun l => l.name ++ "=" ++ l.value ++ ";") ++ "|"
    ++ m.task.name ++ "," ++ m.task.image ++ "," ++ m.task.description ++ ","
    ++ m.task.destination ++ "," ++ encodeConfig m.task.config ++ ","
    ++ toString m.task.priority ++ "|"
    ++ m.schedule.startDate ++ "," ++ m.schedule.interval ++ "|"
    ++ String.join (m.dependencies.map fun d =>
        d.tenant ++ "/" ++ d.job ++ ":" ++ d.type ++ ";") ++ "|"
    ++ String.join (m.hooks.map fun h =>
        h.name ++ "," ++ h.image ++ "," ++ encodeConfig h.config ++ ";")

/-- Modelled from the spec: `meta.JobAdapter.CompileMessage` serializes the
full metadata record; the concrete byte format is abstracted as a canonical
string rendering (the spec fixes only that it is deterministic in the
record). -/
def CompileMessage (m : JobMetadata) : Except MetaError String :=
  .ok (encodeMetadata m)

/-! ## RPC handler model (`api/handler/v1/runtime.go`)

Collaborators (project repository, job service, proto adapter, stream) are
records of functions; Go errors carry a not-found flag so that error kinds can
be compared against the gRPC status the handler returns. -/

/-- gRPC status codes used by the handler (`codes.Internal`) plus the codes a
caller would need to tell lookup misses apart. -/
inductive Code where
  | internal
  | notFound
deriving DecidableEq, Repr

/-- A terminal gRPC status as built by `status.Error(code, msg)`. -/
structure GrpcStatus where
  code : Code
  message : String
deriving DecidableEq, Repr

/-- A Go `error` value from a collaborator: its message (`Error()`) plus
whether it is a not-found error (`store.ErrResourceNotFound` kind). -/
structure GoErr where
  isNotFound : Bool := false
  msg : String
deriving DecidableEq, Repr

/-- Model of `status.Error(codes.Internal, err.Error())` as used throughout the
handler: every collaborator failure is wrapped with code `Internal`, keeping
only the message text. -/
def internalStatus (e : GoErr) : GrpcStatus :=
  { code := .internal, message := e.msg }

/-- Wire form of a job specification (`pb.JobSpecification`), opaque here. -/
structure JobProto where
  name : String
deriving DecidableEq, Repr

/-- Wire form of a project specification (`pb.ProjectSpecification`). -/
structure ProjectProto where
  name : String
deriving DecidableEq, Repr

/-! ### Version -/

/-- Model of `pb.VersionRequest`: the caller's declared client version. -/
structure VersionRequest where
  client : String
deriving DecidableEq, Repr

/-- Model of `pb.VersionResponse` as constructed by the handler: only the `Server`
field is ever set. -/
structure VersionResponse where
  server : String
deriving DecidableEq, Repr

/-- Model of `runtimeServiceServer.Version`: logs the caller's declared client version
and returns the running server's version string; it cannot fail (the Go method
always returns a nil error). The second component is the log output. -/
def version (svVersion : String) (req : VersionRequest) :
    VersionResponse × List String :=
  ({ server := svVersion },
   ["client with version " ++ req.client ++ " requested for ping "])

/-! ### GetJob -/

/-- Model of `pb.GetJobRequest`. -/
structure GetJobRequest where
  projectName : String
  jobName : String
deriving DecidableEq, Repr

/-- Model of `pb.GetJobResponse`. -/
structure GetJobResponse where
  project : ProjectProto
  job : JobProto
deriving DecidableEq, Repr

/-- Collaborators of `GetJob`: the project repository's `GetByName`, the job
service's `GetByName`, and the proto adapter. -/
structure GetJobDeps where
  projectGetByName : String → Except GoErr ProjectSpec
  jobGetByName : String → ProjectSpec → Except GoErr JobSpec
  toJobProto : JobSpec → Except GoErr JobProto
  toProjectProto : ProjectSpec → ProjectProto

/-- Model of `runtimeServiceServer.GetJob`: resolve the project, resolve the job within
it, adapt to wire form; every failure is returned as
`status.Error(codes.Internal, err.Error())`. The boolean records whether
`jobSvc.GetByName` was invoked. -/
def getJob (d : GetJobDeps) (req : GetJobRequest) :
    Except GrpcStatus GetJobResponse × Bool :=
  match d.projectGetByName req.projectName with
  | .error e => (.error (internalStatus e), false)
  | .ok projSpec =>
    match d.jobGetByName req.jobName projSpec with
    | .error e => (.error (internalStatus e), true)
    | .ok jobSpec =>
      match d.toJobProto jobSpec with
      | .error e => (.error (internalStatus e), true)
      | .ok jobProto =>
        (.ok { project := d.toProjectProto projSpec, job := jobProto }, true)

/-! ### DeploySpecification and the stream-relay observer -/

/-- Model of `pb.DeploySpecificationResponse` (the per-job acknowledgment message);
the field keeps the source's spelling `Succcess`. `message` defaults to the
proto zero value. -/
structure DeployResponse where
  succcess : Bool
  jobName : String
  message : String := ""
deriving DecidableEq, Repr

/-- A progress event (`progress.Event`): either `job.EventJobUpload`
carrying `{Job, Err}`, or any other (unrecognized) event type. -/
inductive Event where
  | jobUpload (job : JobSpec) (err : Option String)
  | other (tag : String)

/-- The acknowledgment response `jobSyncObserver.Notify` builds for an
upload event: success with the job's name, downgraded to a failure message
when the event carries an error. -/
def mkAckResponse (job : JobSpec) (err : Option String) : DeployResponse :=
  match err with
  | some m => { succcess := false, jobName := job.name, message := m }
  | none => { succcess := true, jobName := job.name }

/-- Observable state of the stream-relay observer: acknowledgments
successfully sent on the stream, and log entries written. -/
structure ObsState where
  sent : List DeployResponse := []
  logged : List String := []

/-- Model of `jobSyncObserver.Notify`: on `job.EventJobUpload`, build the
acknowledgment and send it on the stream; a send failure is logged and not
propagated (the method has no error channel). Any other event type is
ignored. `sendOk` models whether `stream.Send` succeeds for a given
message. -/
def notify (sendOk : DeployResponse → Bool) (st : ObsState) (e : Event) :
    ObsState :=
  match e with
  | .jobUpload job err =>
    let resp := mkAckResponse job err
    if sendOk resp then
      { st with sent := st.sent ++ [resp] }
    else
      { st with logged :=
          st.logged ++ ["failed to send deploy spec ack for: " ++ job.name] }
  | .other _ => st

/-- Collaborators of `DeploySpecification`: project repository, proto
adapter, job service (`Create`, `Sync` split into its emitted events and its
result), and the stream send outcome. -/
structure DeployDeps where
  projectGetByName : String → Except GoErr ProjectSpec
  fromJobProto : JobProto → Except GoErr JobSpec
  create : JobSpec → ProjectSpec → Except GoErr Unit
  syncEvents : ProjectSpec → List Event
  syncResult : ProjectSpec → Except GoErr Unit
  sendOk : DeployResponse → Bool

/-- Trace of one `DeploySpecification` call: which wire jobs were passed to
`FromJobProto`, which adapted specs were passed to `Create`, the events
forwarded to the chained progress observer, the stream-relay observer state,
and whether `jobSvc.Sync` was invoked. -/
structure DeployTrace where
  adapted : List JobProto := []
  createCalled : List JobSpec := []
  progressed : List Event := []
  obs : ObsState := {}
  syncInvoked : Bool := false

/-- Model of `pb.DeploySpecificationRequest`. -/
structure DeployRequest where
  projectName : String
  jobs : List JobProto
deriving DecidableEq, Repr

/-- The adapt-then-persist loop of `DeploySpecification`: for each incoming
job, `FromJobProto` then `Create`; the first failure returns a terminal
Internal status, aborting the rest of the batch. It is parameterized by the
only two collaborator functions it uses. -/
def deployLoop (fromJobProto : JobProto → Except GoErr JobSpec)
    (create : JobSpec → ProjectSpec → Except GoErr Unit)
    (projSpec : ProjectSpec) :
    List JobProto → DeployTrace → Option GrpcStatus × DeployTrace
  | [], tr => (none, tr)
  | j :: rest, tr =>
    let tr1 := { tr with adapted := tr.adapted ++ [j] }
    match fromJobProto j with
    | .error e => (some (internalStatus e), tr1)
    | .ok adaptJob =>
      let tr2 := { tr1 with createCalled := tr1.createCalled ++ [adaptJob] }
      match create adaptJob projSpec with
      | .error e => (some (internalStatus e), tr2)
      | .ok _ => deployLoop fromJobProto create projSpec rest tr2

/-- One event delivered to the observer chain during `Sync`: the
caller-agnostic progress observer records it, then the stream-relay observer
handles it with the given send outcome. -/
def observeEvent (sendOk : DeployResponse → Bool) (t : DeployTrace)
    (e : Event) : DeployTrace :=
  { t with progressed := t.progressed ++ [e],
           obs := notify sendOk t.obs e }

/-- Model of `runtimeServiceServer.DeploySpecification`: resolve the project, adapt
and persist each job (first failure aborts), then invoke `jobSvc.Sync` with
the observer chain; each emitted event is relayed as an acknowledgment. The
first component is the terminal error (`none` means the RPC completed
successfully). -/
def deploySpecification (d : DeployDeps) (req : DeployRequest) :
    Option GrpcStatus × DeployTrace :=
  match d.projectGetByName req.projectName with
  | .error e => (some (internalStatus e), {})
  | .ok projSpec =>
    match deployLoop d.fromJobProto d.create projSpec req.jobs {} with
    | (some st, tr) => (some st, tr)
    | (none, tr) =>
      let tr2 := (d.syncEvents projSpec).foldl (observeEvent d.sendOk)
        { tr with syncInvoked := true }
      match d.syncResult projSpec with
      | .error e => (some (internalStatus e), tr2)
      | .ok _ => (none, tr2)

/-- Whether a single wire job would pass adapt-then-persist. -/
def jobOk (d : DeployDeps) (projSpec : ProjectSpec) (j : JobProto) : Bool :=
  match d.fromJobProto j with
  | .error _ => false
  | .ok adaptJob =>
    match d.create adaptJob projSpec with
    | .error _ => false
    | .ok _ => true

/-- Whether the whole request setup (project lookup and every job's
adapt+Create) would succeed. -/
def setupOk (d : DeployDeps) (req : DeployRequest) : Bool :=
  match d.projectGetByName req.projectName with
  | .error _ => false
  | .ok projSpec => req.jobs.all (jobOk d projSpec)

/-- The job specs produced by adaptation of a list of wire jobs, dropping
adaptation failures. -/
def adaptedSpecs (d : DeployDeps) (jobs : List JobProto) : List JobSpec :=
  jobs.filterMap fun j => (d.fromJobProto j).toOption

/-! ## Concrete fixtures

The project/job fixture mirrors `meta_test.TestJobAdapter`; the deploy/get
fixtures are concrete collaborator instantiations used to witness the
handler theorems. -/

/-- The project of the adapter test: `humara-projectSpec`. -/
def testProjectSpec : ProjectSpec :=
  { name := "humara-projectSpec",
    config := [("bucket", "gs://some_folder")] }

/-- The execution unit mock of the adapter test (`bq2bq`), generating
destination `destination_table`. -/
def testExecUnit : ExecutionUnit :=
  { getName := "bq2bq",
    getImage := "image",
    getDescription := "description",
    generateDestination := fun _ => .ok "destination_table" }

/-- The hook unit mock of the adapter test (`transporter`). -/
def testHookUnit : HookUnit :=
  { getName := "transporter",
    getImage := "h_image",
    getDescription := "h_description",
    getType := .post,
    getDependsOn := ["some_value"] }

/-- The job spec `job-1` of the adapter test. -/
def testJobSpec : JobSpec :=
  { name := "job-1",
    owner := "mee@mee",
    version := 100,
    labels := [{ name := "l1", value := "lv1" }],
    behavior := { catchUp := true, dependsOnPast := false },
    schedule := { startDate := "2000-11-11T00:00:00Z", interval := "* * * * *" },
    task := { unit := testExecUnit,
              config := [{ name := "do", value := "this" }],
              priority := 2000,
              window := { size := 3600000000000, offset := 0, truncateTo := "d" } },
    assets := { assets := [{ name := "query.sql", value := "select * from 1" }] },
    dependencies :=
      [("job-2",
        { project := some { name := "some_other_project" },
          job := some { name := "job-2" },
          type := .inter })],
    hooks := [{ config :=
                  [{ name := "SAMPLE_CONFIG", value := "200" },
                   { name := "PRODUCER_CONFIG_BOOTSTRAP_SERVERS",
                     value := "\x7b\x7b.GLOBAL__transporterKafkaBroker\x7d\x7d" }],
                unit := testHookUnit }] }

/-- The metadata record the adapter test expects for `job-1`. -/
def expectedTestMetadata : JobMetadata :=
  { urn := "humara-projectSpec::job/job-1",
    name := "job-1",
    tenant := "humara-projectSpec",
    version := 100,
    description := "",
    labels := [{ name := "l1", value := "lv1" }],
    owner := "mee@mee",
    task := { name := "bq2bq",
              image := "image",
              description := "description",
              destination := "destination_table",
              config := [{ name := "do", value := "this" }],
              window := { size := 3600000000000, offset := 0, truncateTo := "d" },
              priority := 2000 },
    schedule := { startDate := "2000-11-11T00:00:00Z", interval := "* * * * *" },
    behavior := { catchUp := true, dependsOnPast := false },
    dependencies := [{ tenant := "some_other_project", job := "job-2", type := "inter" }],
    hooks := [{ name := "transporter",
                image := "h_image",
                description := "h_description",
                config :=
                  [{ name := "SAMPLE_CONFIG", value := "200" },
                   { name := "PRODUCER_CONFIG_BOOTSTRAP_SERVERS",
                     value := "\x7b\x7b.GLOBAL__transporterKafkaBroker\x7d\x7d" }],
                type := .post,
                dependsOn := ["some_value"] }] }

/-- The inter-project dependency entry of the adapter test. -/
def testInterDep : JobSpecDependency :=
  { project := some { name := "some_other_project" },
    job := some { name := "job-2" },
    type := .inter }

/-- GetJob collaborators whose project lookup fails with a NOT-FOUND error. -/
def getJobDepsNotFound : GetJobDeps :=
  { projectGetByName := fun _ => .error { isNotFound := true, msg := "resource not found" },
    jobGetByName := fun _ _ => .error { msg := "job lookup must not run" },
    toJobProto := fun j => .ok { name := j.name },
    toProjectProto := fun p => { name := p.name } }

/-- GetJob collaborators whose project lookup fails with a generic internal
error carrying the same message text. -/
def getJobDepsInternal : GetJobDeps :=
  { projectGetByName := fun _ => .error { isNotFound := false, msg := "resource not found" },
    jobGetByName := fun _ _ => .error { msg := "job lookup must not run" },
    toJobProto := fun j => .ok { name := j.name },
    toProjectProto := fun p => { name := p.name } }

/-- A GetJob request for an unknown project. -/
def getJobReqUnknown : GetJobRequest :=
  { projectName := "no-such-project", jobName := "job-1" }

/-- Deploy collaborators for the witness runs: project `proj` exists, the
wire job named `bad` fails adaptation, the wire job named `badcreate` fails
persistence, everything else succeeds. -/
def deployDepsEx : DeployDeps :=
  { projectGetByName := fun n =>
      if n = "proj" then .ok { name := "proj" }
      else .error { isNotFound := true, msg := "project not found" },
    fromJobProto := fun j =>
      if j.name = "bad" then .error { msg := "adapt failed" }
      else .ok { name := j.name },
    create := fun js _ =>
      if js.name = "badcreate" then .error { msg := "create failed" }
      else .ok (),
    syncEvents := fun _ => [.jobUpload { name := "good" } none],
    syncResult := fun _ => .ok (),
    sendOk := fun _ => true }

/-- A deploy batch whose second job fails adaptation. -/
def deployReqEx : DeployRequest :=
  { projectName := "proj",
    jobs := [{ name := "good" }, { name := "bad" }, { name := "tail" }] }

/-- A minimal job spec used in observer witnesses. -/
def obsJob : JobSpec := { name := "job-1" }

/-! ## Theorems -/

/-- C9: an event whose type is not the recognized job-upload event type is
ignored by the stream-relay observer: `Notify` sends nothing, raises no error
(its type has no error channel), and leaves the observer state unchanged. -/
theorem notify_unrecognized_noop :
    ∀ (sendOk : DeployResponse → Bool) (st : ObsState) (tag : String),
      notify sendOk st (.other tag) = st := by
  intro sendOk st tag
  rfl

/-- C10: for an `EventJobUpload` event, the acknowledgment the stream-relay
observer sends has `JobName` equal to the event's job name, its success flag
is true iff the event carries no error, and its `Message` is the error text
when an error is present and empty otherwise; when the send succeeds exactly
this acknowledgment is appended to the stream. -/
theorem notify_ack_message_fields :
    ∀ (sendOk : DeployResponse → Bool) (st : ObsState) (job : JobSpec)
      (err : Option String),
      (mkAckResponse job err).jobName = job.name
      ∧ ((mkAckResponse job err).succcess = true ↔ err = none)
      ∧ (mkAckResponse job err).message =
          (match err with | some m => m | none => "")
      ∧ (sendOk (mkAckResponse job err) = true →
          notify sendOk st (.jobUpload job err) =
            { st with sent := st.sent ++ [mkAckResponse job err] }) := by
  intro sendOk st job err
  refine ⟨?_, ?_, ?_, ?_⟩
  · cases err <;> rfl
  · cases err <;> simp [mkAckResponse]
  · cases err <;> rfl
  · intro h
    simp [notify, h]

/-- Witness for C10 at a concrete upload event carrying an error. -/
theorem notify_ack_message_fields_witness :
    notify (fun _ => true) {} (.jobUpload obsJob (some "boom")) =
      { ({} : ObsState) with
        sent := ({} : ObsState).sent ++ [mkAckResponse obsJob (some "boom")] } :=
  (notify_ack_message_fields (fun _ => true) {} obsJob (some "boom")).2.2.2 rfl

/-- C6: a failure of the stream `Send` inside the relay observer is logged
and not propagated — `Notify` returns normally with only a log entry added;
moreover the terminal outcome of `DeploySpecification` is entirely
independent of which stream sends succeed, so a relay failure never aborts
the sync loop nor becomes the request's terminal error. -/
theorem notify_send_failure_not_escalated :
    (∀ (sendOk : DeployResponse → Bool) (st : ObsState) (job : JobSpec)
       (err : Option String),
       sendOk (mkAckResponse job err) = false →
       notify sendOk st (.jobUpload job err) =
         { st with logged :=
             st.logged ++ ["failed to send deploy spec ack for: " ++ job.name] })
    ∧ (∀ (d : DeployDeps) (f g : DeployResponse → Bool) (req : DeployRequest),
       (deploySpecification { d with sendOk := f } req).1 =
       (deploySpecification { d with sendOk := g } req).1) := by
  constructor
  · intro sendOk st job err h
    simp [notify, h]
  · intro d f g req
    obtain ⟨dp, df, dc, dse, dsr, dso⟩ := d
    simp only [deploySpecification]
    cases hp : dp req.projectName with
    | error e => rfl
    | ok projSpec =>
      simp only [hp]
      cases hdl : deployLoop df dc projSpec req.jobs {} with
      | mk res tr =>
        cases res with
        | some st => rfl
        | none =>
          cases hsr : dsr projSpec with
          | error e => rfl
          | ok u => rfl

/-- Witness for C6: a concrete failing send is logged and returns normally,
and a concrete deploy run has the same terminal outcome whether every send
fails or every send succeeds. -/
theorem notify_send_failure_not_escalated_witness :
    notify (fun _ => false) {} (.jobUpload obsJob none) =
      { ({} : ObsState) with
        logged := ({} : ObsState).logged ++
          ["failed to send deploy spec ack for: " ++ obsJob.name] }
    ∧ (deploySpecification { deployDepsEx with sendOk := fun _ => false }
         deployReqEx).1 =
      (deploySpecification { deployDepsEx with sendOk := fun _ => true }
         deployReqEx).1 :=
  ⟨notify_send_failure_not_escalated.1 (fun _ => false) {} obsJob none rfl,
   notify_send_failure_not_escalated.2 deployDepsEx
     (fun _ => false) (fun _ => true) deployReqEx⟩

/-- C8 counterexample: the claim says the response pairs the server's version
with the caller's declared client version, but the handler's response is
independent of the request — two requests declaring different client versions
receive identical responses, so the response cannot carry the caller's
declared client version. -/
theorem version_ignores_client_counterexample :
    (version "v1.0" { client := "clientA" }).1 =
      (version "v1.0" { client := "clientB" }).1
    ∧ "clientA" ≠ "clientB" := by
  exact ⟨rfl, by decide⟩

/-- C8 (amended): `Version` returns a response containing only the running
server's version string; the caller's declared client version is logged, not
returned; and the call never fails (it is a total function with no error
outcome). -/
theorem version_returns_server_only :
    ∀ (svVersion : String) (req : VersionRequest),
      version svVersion req =
        ({ server := svVersion },
         ["client with version " ++ req.client ++ " requested for ping "]) := by
  intro svVersion req
  rfl

/-- C5 counterexample: a not-found project lookup makes `GetJob` return a
terminal status with code `Internal` (not a not-found status), and that
status is identical to the one produced by a generic internal failure with
the same message — so a not-found outcome is not distinguishable from other
internal errors in the returned terminal status. The `false` component
confirms the job lookup was never invoked. -/
theorem getJob_status_code_counterexample :
    getJob getJobDepsNotFound getJobReqUnknown =
      (.error { code := .internal, message := "resource not found" }, false)
    ∧ getJob getJobDepsNotFound getJobReqUnknown =
      getJob getJobDepsInternal getJobReqUnknown
    ∧ Code.internal ≠ Code.notFound := by
  exact ⟨rfl, rfl, by decide⟩

/-- C5 (amended): `GetJob` on a failing project lookup returns a terminal
error with gRPC code `Internal` carrying the lookup error's message, without
ever invoking the job lookup; not-found outcomes are surfaced only through
the message text, with the same `Internal` code as any other internal
error. -/
theorem getJob_project_failure_aborts :
    ∀ (d : GetJobDeps) (req : GetJobRequest) (e : GoErr),
      d.projectGetByName req.projectName = .error e →
      getJob d req = (.error { code := .internal, message := e.msg }, false) := by
  intro d req e h
  simp [getJob, h, internalStatus]

/-- Witness for C5's amended theorem at the concrete unknown project. -/
theorem getJob_project_failure_aborts_witness :
    getJob getJobDepsNotFound getJobReqUnknown =
      (.error { code := .internal, message := "resource not found" }, false) :=
  getJob_project_failure_aborts getJobDepsNotFound getJobReqUnknown
    { isNotFound := true, msg := "resource not found" } rfl

/-- C2: `FromJobSpec` produces a metadata record whose `Urn` is
`project.Name + "::job/" + job.Name`; repeated calls with identical input
yield the same `Urn`; and the test fixture (`humara-projectSpec`, `job-1`)
yields `Urn = "humara-projectSpec::job/job-1"` (the full record matching the
test's expectation). -/
theorem fromJobSpec_urn :
    (∀ (p : ProjectSpec) (j : JobSpec) (m : JobMetadata),
       FromJobSpec p j = .ok m → m.urn = p.name ++ "::job/" ++ j.name)
    ∧ (∀ (p : ProjectSpec) (j : JobSpec), FromJobSpec p j = FromJobSpec p j)
    ∧ FromJobSpec testProjectSpec testJobSpec = .ok expectedTestMetadata
    ∧ expectedTestMetadata.urn = "humara-projectSpec::job/job-1" := by
  refine ⟨?_, fun p j => rfl, rfl, rfl⟩
  intro p j m h
  unfold FromJobSpec at h
  cases hg : j.task.unit.generateDestination
      { config := j.task.config, assets := j.assets.toMap } with
  | error e => rw [hg] at h; exact absurd h (by simp)
  | ok dest =>
    rw [hg] at h
    cases hf : flattenDeps p.name j.dependencies with
    | error e => rw [hf] at h; exact absurd h (by simp)
    | ok deps =>
      rw [hf] at h
      simp only [Except.ok.injEq] at h
      rw [← h]

/-- Witness for C2 applying the Urn law at the adapter-test fixture. -/
theorem fromJobSpec_urn_witness :
    expectedTestMetadata.urn =
      testProjectSpec.name ++ "::job/" ++ testJobSpec.name :=
  fromJobSpec_urn.1 testProjectSpec testJobSpec expectedTestMetadata rfl

/-- C3: a dependency entry with a referenced job flattens so that `Tenant`
is the dependency's project name when present and the current project's name
otherwise, `Job` is the referenced job's name, and `Type` is the dependency
type's string form; `FromJobSpec` uses exactly this flattening for the
dependency list; and the test's dependency on `job-2` under
`some_other_project` flattens to Tenant `some_other_project`, Job `job-2`,
Type `inter`. -/
theorem dependency_flattening :
    (∀ (projectName key : String) (dep : JobSpecDependency)
       (dj : DependencyJobRef),
       dep.job = some dj →
       flattenDep projectName key dep =
         .ok { tenant := match dep.project with
                         | some p => p.name
                         | none => projectName,
               job := dj.name,
               type := dep.type.toStr })
    ∧ (∀ (p : ProjectSpec) (j : JobSpec) (m : JobMetadata),
       FromJobSpec p j = .ok m →
       flattenDeps p.name j.dependencies = .ok m.dependencies)
    ∧ flattenDep "humara-projectSpec" "job-2" testInterDep =
        .ok { tenant := "some_other_project", job := "job-2", type := "inter" } := by
  refine ⟨?_, ?_, rfl⟩
  · intro projectName key dep dj h
    simp [flattenDep, h]
  · intro p j m h
    unfold FromJobSpec at h
    cases hg : j.task.unit.generateDestination
        { config := j.task.config, assets := j.assets.toMap } with
    | error e => rw [hg] at h; exact absurd h (by simp)
    | ok dest =>
      rw [hg] at h
      cases hf : flattenDeps p.name j.dependencies with
      | error e => rw [hf] at h; exact absurd h (by simp)
      | ok deps =>
        rw [hf] at h
        simp only [Except.ok.injEq] at h
        rw [← h]

/-- Witness for C3 applying the per-entry law at the test's inter-project
dependency. -/
theorem dependency_flattening_witness :
    flattenDep "humara-projectSpec" "job-2" testInterDep =
      .ok { tenant := match testInterDep.project with
                      | some p => p.name
                      | none => "humara-projectSpec",
            job := ({ name := "job-2" } : DependencyJobRef).name,
            type := testInterDep.type.toStr } :=
  dependency_flattening.1 "humara-projectSpec" "job-2" testInterDep
    { name := "job-2" } rfl

/-- C4: `FromJobSpec`, `CompileKey` and `CompileMessage` are deterministic —
identical inputs give identical outputs — and on the unchanged test fixture
two compilations of the adapted metadata yield byte-identical
`CompileMessage` output. -/
theorem metadata_compilation_deterministic :
    (∀ (p q : ProjectSpec) (j k : JobSpec), p = q → j = k →
       FromJobSpec p j = FromJobSpec q k)
    ∧ (∀ (a b : String), a = b → CompileKey a = CompileKey b)
    ∧ (∀ (m n : JobMetadata), m = n → CompileMessage m = CompileMessage n)
    ∧ (∀ (m n : JobMetadata),
       FromJobSpec testProjectSpec testJobSpec = .ok m →
       FromJobSpec testProjectSpec testJobSpec = .ok n →
       CompileMessage m = CompileMessage n) := by
  refine ⟨?_, ?_, ?_, ?_⟩
  · intro p q j k hp hj; rw [hp, hj]
  · intro a b h; rw [h]
  · intro m n h; rw [h]
  · intro m n h1 h2
    have h := h1.symm.trans h2
    simp only [Except.ok.injEq] at h
    rw [h]

/-- Witness for C4 at the adapter-test fixture: compiling the twice-adapted
metadata gives identical bytes. -/
theorem metadata_compilation_deterministic_witness :
    CompileMessage expectedTestMetadata = CompileMessage expectedTestMetadata :=
  metadata_compilation_deterministic.2.2.2 expectedTestMetadata
    expectedTestMetadata rfl rfl

/-- C7: config flattening in `FromJobSpec` preserves source order — the
flattened task config equals the input task config entry for entry, and the
output hook list is the insertion-ordered image of the job's hooks, each
keeping its config order. -/
theorem config_order_preserved :
    ∀ (p : ProjectSpec) (j : JobSpec) (m : JobMetadata),
      FromJobSpec p j = .ok m →
      m.task.config = j.task.config
      ∧ (∀ i : Nat, m.task.config[i]? = j.task.config[i]?)
      ∧ m.hooks = j.hooks.map flattenHook
      ∧ (∀ i : Nat, (m.hooks[i]?).map JobHookMetadata.config =
              (j.hooks[i]?).map JobSpecHook.config) := by
  intro p j m h
  unfold FromJobSpec at h
  cases hg : j.task.unit.generateDestination
      { config := j.task.config, assets := j.assets.toMap } with
  | error e => rw [hg] at h; exact absurd h (by simp)
  | ok dest =>
    rw [hg] at h
    cases hf : flattenDeps p.name j.dependencies with
    | error e => rw [hf] at h; exact absurd h (by simp)
    | ok deps =>
      rw [hf] at h
      simp only [Except.ok.injEq] at h
      refine ⟨by rw [← h], fun i => by rw [← h], by rw [← h], fun i => ?_⟩
      rw [← h]
      simp only [List.getElem?_map]
      cases j.hooks[i]? with
      | none => rfl
      | some hk => rfl

/-- Witness for C7 at the adapter-test fixture. -/
theorem config_order_preserved_witness :
    expectedTestMetadata.task.config = testJobSpec.task.config
    ∧ expectedTestMetadata.hooks = testJobSpec.hooks.map flattenHook :=
  ⟨(config_order_preserved testProjectSpec testJobSpec expectedTestMetadata
      rfl).1,
   (config_order_preserved testProjectSpec testJobSpec expectedTestMetadata
      rfl).2.2.1⟩

/-- Helper: a list whose `all` is false splits into a passing prefix, a
first failing element, and a remainder. -/
theorem deploy_all_false_split {α : Type} (f : α → Bool) :
    ∀ (l : List α), l.all f = false →
      ∃ pre x post, l = pre ++ x :: post ∧ pre.all f = true ∧ f x = false := by
  intro l
  induction l with
  | nil => intro h; simp at h
  | cons a l ih =>
    intro h
    cases hfa : f a with
    | false => exact ⟨[], a, l, rfl, rfl, hfa⟩
    | true =>
      have hl : l.all f = false := by
        rw [List.all_cons, hfa, Bool.true_and] at h
        exact h
      obtain ⟨pre, x, post, hsplit, hpre, hx⟩ := ih hl
      refine ⟨a :: pre, x, post, ?_, ?_, hx⟩
      · rw [hsplit, List.cons_append]
      · rw [List.all_cons, hfa, hpre]
        rfl

/-- Helper: relaying events to the observer chain never changes the
`syncInvoked` marker of the trace. -/
theorem observe_foldl_syncInvoked (sendOk : DeployResponse → Bool) :
    ∀ (events : List Event) (t : DeployTrace),
      (events.foldl (observeEvent sendOk) t).syncInvoked = t.syncInvoked := by
  intro events
  induction events with
  | nil => intro t; rfl
  | cons e rest ih =>
    intro t
    rw [List.foldl_cons, ih]
    rfl

/-- Helper: when every job of the batch passes adapt-then-persist, the loop
returns no error, records every job as adapted, and records every adapted
spec as created, leaving the rest of the trace untouched. -/
theorem deployLoop_all_ok (d : DeployDeps) (projSpec : ProjectSpec) :
    ∀ (jobs : List JobProto), jobs.all (jobOk d projSpec) = true →
      ∀ (tr : DeployTrace),
        deployLoop d.fromJobProto d.create projSpec jobs tr =
          (none, { tr with adapted := tr.adapted ++ jobs,
                           createCalled := tr.createCalled ++ adaptedSpecs d jobs }) := by
  intro jobs
  induction jobs with
  | nil =>
    intro h tr
    simp [deployLoop, adaptedSpecs]
  | cons j rest ih =>
    intro h tr
    rw [List.all_cons, Bool.and_eq_true] at h
    obtain ⟨hj, hrest⟩ := h
    cases hf : d.fromJobProto j with
    | error e => simp [jobOk, hf] at hj
    | ok aj =>
      simp only [jobOk, hf] at hj
      cases hc : d.create aj projSpec with
      | error e => simp [hc] at hj
      | ok u =>
        simp only [deployLoop, hf, hc]
        rw [ih hrest]
        simp [adaptedSpecs, List.filterMap_cons, hf, Except.toOption,
          List.append_assoc]

/-- Helper: when a passing prefix is followed by a job that fails adaptation
or persistence, the loop stops there with a terminal error: exactly the
prefix and the failing job were adapted, only successful adaptations reached
`Create`, and the rest of the trace is untouched. -/
theorem deployLoop_fail (d : DeployDeps) (projSpec : ProjectSpec) :
    ∀ (pre : List JobProto) (j : JobProto) (post : List JobProto),
      pre.all (jobOk d projSpec) = true → jobOk d projSpec j = false →
      ∀ (tr : DeployTrace),
        (deployLoop d.fromJobProto d.create projSpec (pre ++ j :: post) tr).1.isSome = true
        ∧ (deployLoop d.fromJobProto d.create projSpec (pre ++ j :: post) tr).2 =
            { tr with adapted := tr.adapted ++ (pre ++ [j]),
                      createCalled := tr.createCalled ++ adaptedSpecs d (pre ++ [j]) } := by
  intro pre
  induction pre with
  | nil =>
    intro j post hall hj tr
    cases hf : d.fromJobProto j with
    | error e =>
      constructor
      · simp [deployLoop, hf]
      · simp [deployLoop, hf, adaptedSpecs, List.filterMap_cons, Except.toOption]
    | ok aj =>
      simp only [jobOk, hf] at hj
      cases hc : d.create aj projSpec with
      | error e =>
        constructor
        · simp [deployLoop, hf, hc]
        · simp [deployLoop, hf, hc, adaptedSpecs, List.filterMap_cons,
            Except.toOption]
      | ok u => simp [hc] at hj
  | cons p pre' ih =>
    intro j post hall hj tr
    rw [List.all_cons, Bool.and_eq_true] at hall
    obtain ⟨hp, hpre⟩ := hall
    cases hf : d.fromJobProto p with
    | error e => simp [jobOk, hf] at hp
    | ok ap =>
      simp only [jobOk, hf] at hp
      cases hc : d.create ap projSpec with
      | error e => simp [hc] at hp
      | ok u =>
        simp only [List.cons_append, deployLoop, hf, hc]
        constructor
        · exact (ih j post hpre hj _).1
        · refine ((ih j post hpre hj _).2).trans ?_
          simp [adaptedSpecs, List.filterMap_cons, hf, Except.toOption,
            List.append_assoc]

/-- C1: for a deploy batch, a failure of the project lookup or of any job's
adapt+Create before `Sync` terminates the request with a terminal error, no
later job in the batch is adapted or persisted, and no per-job acknowledgment
is sent on the stream; `Sync` is invoked exactly when project resolution and
every job's adapt+Create succeeded. -/
theorem deploy_setup_failure_is_fatal (d : DeployDeps) (req : DeployRequest) :
    ((deploySpecification d req).2.syncInvoked = true ↔ setupOk d req = true)
    ∧ (setupOk d req = false →
        (deploySpecification d req).1.isSome = true
        ∧ (deploySpecification d req).2.obs.sent = []
        ∧ (deploySpecification d req).2.obs.logged = [])
    ∧ (∀ projSpec, d.projectGetByName req.projectName = .ok projSpec →
        ∀ pre j post, req.jobs = pre ++ j :: post →
          pre.all (jobOk d projSpec) = true → jobOk d projSpec j = false →
          (deploySpecification d req).2.adapted = pre ++ [j]
          ∧ (deploySpecification d req).2.createCalled = adaptedSpecs d (pre ++ [j])
          ∧ (deploySpecification d req).2.obs.sent = []
          ∧ (deploySpecification d req).1.isSome = true)
    ∧ (∀ e, d.projectGetByName req.projectName = .error e →
        (deploySpecification d req).1 = some (internalStatus e)
        ∧ (deploySpecification d req).2 = {}) := by
  refine ⟨?_, ?_, ?_, ?_⟩
  · cases hp : d.projectGetByName req.projectName with
    | error e => simp [deploySpecification, setupOk, hp]
    | ok projSpec =>
      cases hall : req.jobs.all (jobOk d projSpec) with
      | true =>
        have hloop := deployLoop_all_ok d projSpec req.jobs hall {}
        simp only [deploySpecification, hp, hloop]
        cases hsr : d.syncResult projSpec <;>
          simp [observe_foldl_syncInvoked, setupOk, hp, hall]
      | false =>
        obtain ⟨pre, x, post, hsplit, hpre, hx⟩ :=
          deploy_all_false_split _ req.jobs hall
        have hloop := deployLoop_fail d projSpec pre x post hpre hx {}
        rw [← hsplit] at hloop
        rcases hdl : deployLoop d.fromJobProto d.create projSpec req.jobs {}
          with ⟨res, trB⟩
        rw [hdl] at hloop
        obtain ⟨st, hres⟩ := Option.isSome_iff_exists.mp hloop.1
        subst hres
        have h2 : trB = _ := hloop.2
        simp [deploySpecification, hp, hdl, h2, setupOk, hall]
  · intro hsf
    cases hp : d.projectGetByName req.projectName with
    | error e =>
      refine ⟨?_, ?_, ?_⟩ <;> simp [deploySpecification, hp]
    | ok projSpec =>
      have hall : req.jobs.all (jobOk d projSpec) = false := by
        simp only [setupOk, hp] at hsf
        exact hsf
      obtain ⟨pre, x, post, hsplit, hpre, hx⟩ :=
        deploy_all_false_split _ req.jobs hall
      have hloop := deployLoop_fail d projSpec pre x post hpre hx {}
      rw [← hsplit] at hloop
      rcases hdl : deployLoop d.fromJobProto d.create projSpec req.jobs {}
        with ⟨res, trB⟩
      rw [hdl] at hloop
      obtain ⟨st, hres⟩ := Option.isSome_iff_exists.mp hloop.1
      subst hres
      have h2 : trB = _ := hloop.2
      refine ⟨?_, ?_, ?_⟩ <;> simp [deploySpecification, hp, hdl, h2]
  · intro projSpec hp pre j post hsplit hpre hj
    have hloop := deployLoop_fail d projSpec pre j post hpre hj {}
    rw [← hsplit] at hloop
    rcases hdl : deployLoop d.fromJobProto d.create projSpec req.jobs {}
      with ⟨res, trB⟩
    rw [hdl] at hloop
    obtain ⟨st, hres⟩ := Option.isSome_iff_exists.mp hloop.1
    subst hres
    have h2 : trB = _ := hloop.2
    refine ⟨?_, ?_, ?_, ?_⟩ <;> simp [deploySpecification, hp, hdl, h2]
  · intro e he
    constructor <;> simp [deploySpecification, he]

/-- Witness for C1: in a concrete batch whose second job fails adaptation,
the request ends with a terminal error, no acknowledgment is sent, and only
the first two jobs were ever handed to the adapter. -/
theorem deploy_setup_failure_is_fatal_witness :
    (deploySpecification deployDepsEx deployReqEx).1.isSome = true
    ∧ (deploySpecification deployDepsEx deployReqEx).2.obs.sent = []
    ∧ (deploySpecification deployDepsEx deployReqEx).2.adapted =
        [{ name := "good" }] ++ [{ name := "bad" }] := by
  have h := deploy_setup_failure_is_fatal deployDepsEx deployReqEx
  have hfail := h.2.1 (by decide)
  have hstop := h.2.2.1 { name := "proj" } rfl [{ name := "good" }]
    { name := "bad" } [{ name := "tail" }] rfl (by decide) (by decide)
  exact ⟨hfail.1, hfail.2.1, hstop.1⟩

end Optimus
